import Mathlib

/-!
Verification of the two algorithmic components of the built-up-binary-classifier
repository (notebook `built-up-model-training.ipynb`):

* the Segmenter (`cut`), which splits a polyline into pieces of bounded length, and
* the Model Compiler (`parse_subtree` / `parse_one_tree` / `parse_trees`), which
  translates a serialized LightGBM tree ensemble into JavaScript source text.

Modelling conventions.  Python floats are modelled as exact rationals `ℚ` for the
compiler (all numeric behaviour exercised here is decimally terminating) and as
real numbers `ℝ` for the geometry.  Python exceptions (e.g. `IndexError` from a
list lookup) are modelled by `Option`, `none` meaning the exception propagates.
Python's mutation of the caller-supplied `lines` accumulator is modelled by
explicit state passing: `cut` returns the pair (Python return value, final state
of the accumulator list).  The notebook's module-level configuration constants
(`PRECISION_SCORES`, `PRECISION_THRESHOLD`, `MODEL_INPUTS`) are passed as explicit
parameters; the source's default values are recorded as definitions below.
-/

set_option autoImplicit false

namespace BuiltUp

/-! ### Model Compiler: data model -/

/-- A serialized LightGBM tree node, the tagged variant consumed by
`parse_subtree`: a dict carrying `leaf_index`/`leaf_value` is a leaf, otherwise it
is a split with `split_feature`, `threshold`, `decision_type` and two children. -/
inductive Node where
  | leaf (leaf_value : ℚ) (leaf_index : ℕ)
  | split (split_feature : ℤ) (threshold : ℚ) (decision_type : String)
      (left_child : Node) (right_child : Node)
deriving DecidableEq

/-- One entry of the `tree_info` list of a dumped LightGBM model: a wrapper dict
whose `tree_structure` field is the root node. -/
structure Tree where
  tree_structure : Node
deriving DecidableEq

/-- Modelled from Python semantics: list subscription `xs[i]` with an `int` index.
A negative index counts from the end; an index outside `[-len xs, len xs)` raises
`IndexError`, modelled as `none`. -/
def pyIndex (xs : List String) (i : ℤ) : Option String :=
  if 0 ≤ i then xs.get? i.toNat
  else if i.natAbs ≤ xs.length then xs.get? (xs.length - i.natAbs)
  else none

/-- Modelled from Python semantics: `round(q, n)` rounding to `n` decimal digits.
Python rounds the nearest binary double (ties to even); on the exact rationals
exercised here no representable tie arises and rounding to nearest is faithful.
We use Mathlib's `round` (ties toward +infinity). -/
def roundTo (q : ℚ) (n : ℕ) : ℚ := (round (q * 10 ^ n) : ℤ) / 10 ^ n

/-- The fractional decimal digits of `q ∈ [0, 1)`, most significant first, with
trailing zeros suppressed but at least one digit produced; `fuel` bounds the
number of digits (Python's `repr` of a double never needs more than 17). -/
def fracDigits (q : ℚ) : ℕ → List ℕ
  | 0 => []
  | n + 1 =>
    let q10 := q * 10
    let d := (⌊q10⌋).toNat
    let r := q10 - ⌊q10⌋
    if r = 0 then [d] else d :: fracDigits r n

/-- Modelled from Python semantics: the f-string rendering `f'{x}'` of a float,
for decimally terminating values (every value formatted by the compiler claims
terminates): sign, integer part, `.`, fractional digits with at least one digit
(`1.0` renders as `"1.0"`). -/
def formatFloat (q : ℚ) : String :=
  let sign := if q < 0 then "-" else ""
  let a := |q|
  let ipart := (⌊a⌋).toNat
  let frac := a - ⌊a⌋
  sign ++ toString ipart ++ "." ++ String.join ((fracDigits frac 17).map (fun d => toString d))

/-- Source constant: `PRECISION_SCORES = 4` (leaf scores rounded to 4 decimals). -/
def PRECISION_SCORES : Option ℕ := some 4

/-- Source constant: `PRECISION_THRESHOLD = None` (thresholds not rounded). -/
def PRECISION_THRESHOLD : Option ℕ := none

/-- Source constant: the Sentinel-2 band identifiers interpolated into the
generated program's `setup()` section. -/
def BANDS : List String :=
  ["B01", "B02", "B03", "B04", "B05", "B06", "B07", "B08", "B09", "B11", "B12"]

/-! ### Model Compiler: operations -/

/-- `parse_subtree(node, model_inputs, brackets=True)` from the notebook.  A leaf
formats its (optionally rounded) score; a split looks up
`model_inputs[int(node["split_feature"])]` (Python indexing, `none` = `IndexError`),
formats its (optionally rounded) threshold, recursively compiles both children
with `brackets=True`, and builds `(condition)?left:right`, wrapped in one extra
parenthesis pair when `brackets` is true.  The configuration globals
`PRECISION_SCORES` / `PRECISION_THRESHOLD` are the parameters
`precision_scores` / `precision_threshold`. -/
def parse_subtree (node : Node) (model_inputs : List String)
    (precision_scores precision_threshold : Option ℕ) (brackets : Bool) : Option String :=
  match node with
  | .leaf leaf_value _ =>
    let score :=
      match precision_scores with
      | some n => roundTo leaf_value n
      | none => leaf_value
    some (formatFloat score)
  | .split split_feature threshold decision_type left_child right_child => do
    let feature ← pyIndex model_inputs split_feature
    let th :=
      match precision_threshold with
      | some n => roundTo threshold n
      | none => threshold
    let condition := feature ++ decision_type ++ formatFloat th
    let left ← parse_subtree left_child model_inputs precision_scores precision_threshold true
    let right ← parse_subtree right_child model_inputs precision_scores precision_threshold true
    let result := "(" ++ condition ++ ")?" ++ left ++ ":" ++ right
    some (if brackets then "(" ++ result ++ ")" else result)

/-- `parse_one_tree(root, index, model_input_str, model_inputs)` from the
notebook: one per-tree function definition, body compiled with `brackets=False`. -/
def parse_one_tree (root : Node) (index : ℕ) (model_input_str : String)
    (model_inputs : List String) (precision_scores precision_threshold : Option ℕ) :
    Option String :=
  (parse_subtree root model_inputs precision_scores precision_threshold false).map
    (fun body =>
      "\nfunction pt" ++ toString index ++ "(" ++ model_input_str ++ ") \x7b \n   return "
        ++ body ++ ";\n\x7d\n")

/-- The fixed leading boilerplate of the generated program, verbatim from the
f-string template in `parse_trees` (everything before `{tree_functions}`). -/
def programHeader : String :=
  "\n//VERSION=3\nfunction setup() \x7b\n    return \x7b\n        input: [\x7b\n            bands: ["
    ++ String.intercalate "," (BANDS.map (fun band => "\"" ++ band ++ "\""))
    ++ "],\n            units: \"DN\"\n        \x7d],\n        output: \x7b\n            id:\"default\",\n            bands: 4,\n            sampleType: \"AUTO\"\n        \x7d\n    \x7d\n\x7d\nfunction evaluatePixel(sample) \x7b\n    // define the indices you need\n    let NDVI = (sample.B08 - sample.B04)/(sample.B08 + sample.B04)\n    let NDVI_RE1 = (sample.B08 - sample.B05)/(sample.B08 + sample.B05)\n    \n    ...\n    \n    let STI = sample.B11 / sample.B12\n    \n    // call the model. Keep in mind that DN have to be divided by 1.e4 to get the same values as the models so when training\n    let BLDG_PROBA = predict(sample.B01/1.e4, sample.B02/1.e4,..., STI)\n    \n    // make a mask of predictions\n    let BLDG_PROBA_080 = (BLDG_PROBA > 0.8) ? 1 : 0;\n    \n    // return a blue mask where the mask is used as a transparency layer. With minor modificaitons one can also return the probabilities themselves.\n    return [0, 0, 0, 0.4 * BLDG_PROBA_080]\n\x7d\n"

/-- `parse_trees(trees)` from the notebook.  `MODEL_INPUTS` (a placeholder `[]`
in the source, to be specified by the user) is the parameter `model_inputs`, and
`MODEL_INPUTS_STR = ', '.join(MODEL_INPUTS)` is computed from it. -/
def parse_trees (trees : List Tree) (model_inputs : List String)
    (precision_scores precision_threshold : Option ℕ) : Option String := do
  let model_input_str := String.intercalate ", " model_inputs
  let tree_function_list ← trees.enum.mapM
    (fun it => parse_one_tree it.2.tree_structure it.1 model_input_str model_inputs
      precision_scores precision_threshold)
  let tree_functions := String.intercalate "\n" tree_function_list
  let function_sum := String.intercalate "+"
    ((List.range trees.length).map (fun i => "pt" ++ toString i ++ "(" ++ model_input_str ++ ")"))
  some (programHeader ++ tree_functions
    ++ "\nfunction predict(" ++ model_input_str
    ++ ") \x7b \n    return [1/(1+Math.exp(-1*(" ++ function_sum ++ ")))];\n\x7d\n")

/-- The text of one generated per-tree function definition, as assembled by
`parse_one_tree`: `function pt<index>(<args>) { return <body>; }`. -/
def ptFunctionText (index : ℕ) (args body : String) : String :=
  "\nfunction pt" ++ toString index ++ "(" ++ args ++ ") \x7b \n   return "
    ++ body ++ ";\n\x7d\n"

/-- The text of the generated `predict` function for an ensemble of two trees:
its body applies the logistic transform to `pt0(<args>)+pt1(<args>)`, both
per-tree calls receiving the same argument list `args`. -/
def predictText (args : String) : String :=
  "\nfunction predict(" ++ args ++ ") \x7b \n    return [1/(1+Math.exp(-1*("
    ++ ("pt" ++ toString 0 ++ "(" ++ args ++ ")" ++ "+"
      ++ ("pt" ++ toString 1 ++ "(" ++ args ++ ")"))
    ++ ")))];\n\x7d\n"

/-! ### Segmenter: data model

The Segmenter works on shapely `LineString`s.  A `LineString` is its coordinate
sequence; coordinates are real pairs.  The shapely library itself is not part of
the repository, so its three operations used by `cut` are modelled from their
documented semantics: `line.length` (sum of Euclidean segment lengths),
`line.interpolate(d)` (the point at arc length `d` along the line) and
`line.project(Point(p))` (the arc length of the point of the line nearest to
`p`; `cut` only ever projects the line's own vertices, for which this is the arc
length of the *first* position at which the line passes through `p`). -/

section Segmenter

open Classical

/-- A coordinate pair of a shapely geometry. -/
abbrev Pt := ℝ × ℝ

noncomputable section

/-- The Euclidean length of one segment. -/
def segLen (u v : Pt) : ℝ := Real.sqrt ((v.1 - u.1) ^ 2 + (v.2 - u.2) ^ 2)

/-- Modelled from shapely semantics: `line.length`, the sum of the Euclidean
lengths of the consecutive segments. -/
def lineLength : List Pt → ℝ
  | u :: v :: rest => segLen u v + lineLength (v :: rest)
  | _ => 0

/-- `p` lies on the closed segment from `u` to `v`: collinear (zero cross
product) with the projection parameter `(p - u)·(v - u)` within `[0, |v - u|²]`. -/
def onSeg (u v p : Pt) : Prop :=
  (v.1 - u.1) * (p.2 - u.2) = (v.2 - u.2) * (p.1 - u.1) ∧
  0 ≤ (p.1 - u.1) * (v.1 - u.1) + (p.2 - u.2) * (v.2 - u.2) ∧
  (p.1 - u.1) * (v.1 - u.1) + (p.2 - u.2) * (v.2 - u.2)
    ≤ (v.1 - u.1) ^ 2 + (v.2 - u.2) ^ 2

/-- Modelled from shapely semantics: `line.project(Point(p))` for a point `p`
lying on the line (the only use in `cut`): the arc length of the first segment
position at which the line passes through `p`.  (For a point on no segment the
fall-through value is the total length; `cut` never reaches that case.) -/
def project : List Pt → Pt → ℝ
  | u :: v :: rest, p =>
    if onSeg u v p then segLen u p else segLen u v + project (v :: rest) p
  | _, _ => 0

/-- Modelled from shapely semantics: `line.interpolate(d)`, the point at arc
length `d` along the line, clamped to the final vertex when `d` exceeds the
remaining length (`cut` only calls it with `0 < d < line.length`). -/
def interpolate : List Pt → ℝ → Pt
  | [], _ => (0, 0)
  | [u], _ => u
  | u :: v :: rest, d =>
    if d ≤ segLen u v then
      if segLen u v = 0 then u
      else (u.1 + d / segLen u v * (v.1 - u.1), u.2 + d / segLen u v * (v.2 - u.2))
    else interpolate (v :: rest) (d - segLen u v)

/-- The vertex scan of `cut`'s `for i, p in enumerate(coords)` loop: the first
index (and vertex) whose projection onto `line` is at least `distance` — the
first vertex at which one of the loop's two `if` tests (`pd == distance`,
`pd > distance`) fires.  `none` models the loop completing without returning. -/
def firstGE (line : List Pt) (distance : ℝ) : List Pt → ℕ → Option (ℕ × Pt)
  | [], _ => none
  | p :: rest, i =>
    if distance ≤ project line p then some (i, p) else firstGE line distance rest (i + 1)

/-- `cut(line, distance, lines)` from the notebook.  The Python function both
returns a value and mutates its `lines` argument, so the model returns the pair
(Python return value, final state of `lines`); `none` models the implicit
`return None` when the loop falls through.  The `fuel` argument bounds the
recursion depth (Python's recursion is unbounded); `fuel = 0` yields `(none,
lines)` and every claim supplies sufficient fuel.  In the `pd > distance` branch
the Python code discards the recursive call's return value and returns the
shared mutated list, hence `(some r.2, r.2)`. -/
def cut : ℕ → List Pt → ℝ → List (List Pt) → Option (List (List Pt)) × List (List Pt)
  | 0, _, _, lines => (none, lines)
  | fuel + 1, line, distance, lines =>
    if distance ≤ 0 ∨ lineLength line ≤ distance then (some [line], lines)
    else
      match firstGE line distance line 0 with
      | none => (none, lines)
      | some (i, p) =>
        if project line p = distance then
          (some [line.take (i + 1), line.drop i], lines)
        else
          let cp := interpolate line distance
          let lines1 := lines ++ [line.take i ++ [cp]]
          let rem := cp :: line.drop i
          if distance < lineLength rem then
            let r := cut fuel rem distance lines1
            (some r.2, r.2)
          else
            (some (lines1 ++ [rem]), lines1 ++ [rem])

/-- Concatenation of a segment list sharing endpoints: the first segment in
full, then each later segment without its leading (shared) vertex. -/
def concatSegs : List (List Pt) → List Pt
  | [] => []
  | s :: rest => s ++ (rest.map (fun t => t.drop 1)).flatten

/-- The straight line from (0,0) to (250,0) of the C8 scenario. -/
def line250 : List Pt := [(0, 0), (250, 0)]

/-- A polyline with a vertex whose arc length along the remainder line equals
the cut distance 100 after one cut: [(0,0), (150,0), (200,0), (400,0)]. -/
def lineBug : List Pt := [(0, 0), (150, 0), (200, 0), (400, 0)]

/-- A polyline that returns to its starting coordinate:
[(0,0), (10,0), (0,0)]. -/
def lineLoop : List Pt := [(0, 0), (10, 0), (0, 0)]

end

end Segmenter

theorem string_append_assoc (a b c : String) : a ++ b ++ c = a ++ (b ++ c) := by
  apply String.ext
  simp [String.data_append]

/-! ### Model Compiler: theorems -/

/-- C5: the Split node `{split_feature: 0, threshold: 1.5, decision_type: "<="}`
with `feature_names = ["B01"]` and leaf children `1.0` and `-1.0` compiles at the
root (`brackets = false`) to exactly `(B01<=1.5)?1.0:-1.0`; in general a non-root
(`brackets = true`) call on a split node yields exactly the root text wrapped in
one extra parenthesis pair. -/
theorem split_root_brackets :
    parse_subtree (.split 0 (3/2) "<=" (.leaf 1 0) (.leaf (-1) 0)) ["B01"]
      PRECISION_SCORES PRECISION_THRESHOLD false = some "(B01<=1.5)?1.0:-1.0" ∧
    ∀ (split_feature : ℤ) (threshold : ℚ) (decision_type : String) (l r : Node)
      (model_inputs : List String) (ps pt : Option ℕ),
      parse_subtree (.split split_feature threshold decision_type l r) model_inputs ps pt true
        = (parse_subtree (.split split_feature threshold decision_type l r)
            model_inputs ps pt false).map (fun s => "(" ++ s ++ ")") := by
  constructor
  · with_unfolding_all rfl
  · intro f th dt l r mi ps pt
    cases h0 : pyIndex mi f with
    | none => simp [parse_subtree, h0]
    | some feat =>
      cases h1 : parse_subtree l mi ps pt true with
      | none => simp [parse_subtree, h0, h1]
      | some ls =>
        cases h2 : parse_subtree r mi ps pt true with
        | none => simp [parse_subtree, h0, h1, h2]
        | some rs => simp [parse_subtree, h0, h1, h2]

/-- C6: the leaf `{leaf_value: 0.123456, leaf_index: 0}` compiled with the
default score precision 4 yields the literal `"0.1235"`; in general rounding a
score to 4 decimals is rounding half-up: `⌊q·10⁴ + 1/2⌋ / 10⁴`. -/
theorem leaf_precision_rounding :
    parse_subtree (.leaf (123456/1000000) 0) [] PRECISION_SCORES PRECISION_THRESHOLD true
      = some "0.1235" ∧
    ∀ q : ℚ, roundTo q 4 = ((⌊q * 10 ^ 4 + 1/2⌋ : ℤ) : ℚ) / 10 ^ 4 := by
  constructor
  · with_unfolding_all rfl
  · intro q
    rw [roundTo, round_eq]

/-- C3: a split node whose `split_feature` is out of bounds for `model_inputs`
(in the Python sense: at least `len`, or below `-len`) fails to compile (the
`IndexError` propagates as `none`); and for a non-negative index the resolution
is exactly positional lookup into `model_inputs`. -/
theorem out_of_range_feature_index :
    (∀ (model_inputs : List String) (split_feature : ℤ) (threshold : ℚ)
       (decision_type : String) (l r : Node) (ps pt : Option ℕ) (brackets : Bool),
       ((model_inputs.length : ℤ) ≤ split_feature ∨
         split_feature < -(model_inputs.length : ℤ)) →
       parse_subtree (.split split_feature threshold decision_type l r)
         model_inputs ps pt brackets = none) ∧
    (∀ (model_inputs : List String) (i : ℤ), 0 ≤ i →
       pyIndex model_inputs i = model_inputs.get? i.toNat) := by
  constructor
  · intro mi f th dt l r ps pt br h
    have hnone : pyIndex mi f = none := by
      rcases h with h | h
      · rw [pyIndex, if_pos (by omega)]
        exact List.get?_eq_none.mpr (by omega)
      · rw [pyIndex, if_neg (by omega), if_neg (by omega)]
    simp [parse_subtree, hnone]
  · intro mi i hi
    rw [pyIndex, if_pos hi]

/-- C3 witness: with `feature_names = ["B01"]`, index 5 fails to compile and
index 0 resolves positionally. -/
theorem out_of_range_feature_index_witness :
    parse_subtree (.split 5 (3/2) "<=" (.leaf 1 0) (.leaf 1 0)) ["B01"]
      PRECISION_SCORES PRECISION_THRESHOLD true = none ∧
    pyIndex ["B01"] 0 = ["B01"].get? 0 :=
  ⟨out_of_range_feature_index.1 ["B01"] 5 (3/2) "<=" (.leaf 1 0) (.leaf 1 0)
      PRECISION_SCORES PRECISION_THRESHOLD true (Or.inl (by norm_num)),
    out_of_range_feature_index.2 ["B01"] 0 (by norm_num)⟩

/-- C10: a negative `split_feature` no smaller than `-len(model_inputs)` is
silently accepted: the lookup resolves to the feature name at position
`len(model_inputs) + split_feature` (counting from the end), and compiling such a
split succeeds whenever both children compile. -/
theorem negative_feature_index (model_inputs : List String) (split_feature : ℤ)
    (hneg : split_feature < 0) (hge : -(model_inputs.length : ℤ) ≤ split_feature) :
    pyIndex model_inputs split_feature
      = model_inputs.get? ((model_inputs.length : ℤ) + split_feature).toNat ∧
    (pyIndex model_inputs split_feature).isSome = true ∧
    (∀ (threshold : ℚ) (decision_type : String) (l r : Node) (ps pt : Option ℕ)
       (brackets : Bool) (ls rs : String),
       parse_subtree l model_inputs ps pt true = some ls →
       parse_subtree r model_inputs ps pt true = some rs →
       (parse_subtree (.split split_feature threshold decision_type l r)
         model_inputs ps pt brackets).isSome = true) := by
  have hlookup : pyIndex model_inputs split_feature
      = model_inputs.get? ((model_inputs.length : ℤ) + split_feature).toNat := by
    rw [pyIndex, if_neg (by omega), if_pos (by omega)]
    congr 1
    omega
  have hidx : ((model_inputs.length : ℤ) + split_feature).toNat < model_inputs.length := by
    omega
  have hsome : (pyIndex model_inputs split_feature).isSome = true := by
    rw [hlookup, List.get?_eq_get hidx]
    rfl
  refine ⟨hlookup, hsome, ?_⟩
  intro th dt l r ps pt br ls rs h1 h2
  rw [List.get?_eq_get hidx] at hlookup
  simp [parse_subtree, hlookup, h1, h2]

/-- C10 witness: with `feature_names = ["B01", "B02"]`, index `-1` resolves to
`"B02"` and the split compiles. -/
theorem negative_feature_index_witness :
    pyIndex ["B01", "B02"] (-1) = some "B02" ∧
    (parse_subtree (.split (-1) (3/2) "<=" (.leaf 1 0) (.leaf 2 0)) ["B01", "B02"]
      PRECISION_SCORES PRECISION_THRESHOLD true).isSome = true := by
  have h := negative_feature_index ["B01", "B02"] (-1) (by norm_num) (by norm_num)
  exact ⟨h.1.trans (by with_unfolding_all rfl),
    h.2.2 (3/2) "<=" (.leaf 1 0) (.leaf 2 0) PRECISION_SCORES PRECISION_THRESHOLD true
      "1.0" "2.0" (by with_unfolding_all rfl) (by with_unfolding_all rfl)⟩

/-- C2: whenever `parse_trees` succeeds on an ensemble of exactly two trees, the
generated program is the fixed header followed by exactly two per-tree function
definitions, named with indices 0 and 1, followed by a `predict` function whose
body is `1/(1+Math.exp(-1*(pt0(<args>)+pt1(<args>))))`, every per-tree call
receiving the same full feature-name argument list. -/
theorem two_tree_program_shape (t0 t1 : Tree) (model_inputs : List String)
    (ps pt : Option ℕ) (prog : String)
    (h : parse_trees [t0, t1] model_inputs ps pt = some prog) :
    ∃ b0 b1,
      parse_subtree t0.tree_structure model_inputs ps pt false = some b0 ∧
      parse_subtree t1.tree_structure model_inputs ps pt false = some b1 ∧
      prog = programHeader
        ++ ptFunctionText 0 (String.intercalate ", " model_inputs) b0 ++ "\n"
        ++ ptFunctionText 1 (String.intercalate ", " model_inputs) b1
        ++ predictText (String.intercalate ", " model_inputs) := by
  cases h0 : parse_subtree t0.tree_structure model_inputs ps pt false with
  | none => simp [parse_trees, parse_one_tree, h0, List.mapM, List.mapM.loop] at h
  | some b0 =>
    cases h1 : parse_subtree t1.tree_structure model_inputs ps pt false with
    | none => simp [parse_trees, parse_one_tree, h0, h1, List.mapM, List.mapM.loop] at h
    | some b1 =>
      have key : parse_trees [t0, t1] model_inputs ps pt
          = some (programHeader
            ++ ptFunctionText 0 (String.intercalate ", " model_inputs) b0 ++ "\n"
            ++ ptFunctionText 1 (String.intercalate ", " model_inputs) b1
            ++ predictText (String.intercalate ", " model_inputs)) := by
        simp [parse_trees, parse_one_tree, h0, h1, List.mapM, List.mapM.loop,
          String.intercalate, String.intercalate.go, ptFunctionText, predictText,
          string_append_assoc, show List.range 2 = [0, 1] from rfl]
      rw [key] at h
      exact ⟨b0, b1, rfl, rfl, (Option.some.inj h).symm⟩


set_option maxRecDepth 100000 in
/-- C2 witness: a concrete two-leaf-tree ensemble over the feature list `["B01"]`
compiles, and the generated program has the two-function-plus-`predict` shape. -/
theorem two_tree_program_shape_witness :
    ∃ b0 b1,
      parse_subtree (Node.leaf 1 0) ["B01"] PRECISION_SCORES PRECISION_THRESHOLD false
        = some b0 ∧
      parse_subtree (Node.leaf (1/2) 1) ["B01"] PRECISION_SCORES PRECISION_THRESHOLD false
        = some b1 ∧
      programHeader ++ ptFunctionText 0 (String.intercalate ", " ["B01"]) "1.0" ++ "\n"
          ++ ptFunctionText 1 (String.intercalate ", " ["B01"]) "0.5"
          ++ predictText (String.intercalate ", " ["B01"])
        = programHeader ++ ptFunctionText 0 (String.intercalate ", " ["B01"]) b0 ++ "\n"
          ++ ptFunctionText 1 (String.intercalate ", " ["B01"]) b1
          ++ predictText (String.intercalate ", " ["B01"]) :=
  two_tree_program_shape ⟨.leaf 1 0⟩ ⟨.leaf (1/2) 1⟩ ["B01"]
    PRECISION_SCORES PRECISION_THRESHOLD
    (programHeader ++ ptFunctionText 0 (String.intercalate ", " ["B01"]) "1.0" ++ "\n"
      ++ ptFunctionText 1 (String.intercalate ", " ["B01"]) "0.5"
      ++ predictText (String.intercalate ", " ["B01"]))
    (by with_unfolding_all rfl)

/-! ### Segmenter: theorems -/

theorem segLen_horiz (a b : ℝ) : segLen (a, 0) (b, 0) = |b - a| := by
  rw [segLen]
  rw [show (((b, (0:ℝ)).1 - ((a:ℝ), (0:ℝ)).1) ^ 2 + ((b, (0:ℝ)).2 - ((a:ℝ), (0:ℝ)).2) ^ 2)
      = (b - a) ^ 2 by norm_num]
  exact Real.sqrt_sq_eq_abs _

theorem onSeg_horiz (a b c : ℝ) :
    onSeg (a, 0) (b, 0) (c, 0) ↔ 0 ≤ (c - a) * (b - a) ∧ (c - a) * (b - a) ≤ (b - a) ^ 2 := by
  rw [onSeg]
  norm_num

/-- Full evaluation of `cut` on the C8 line [(0,0), (250,0)] with distance 100,
parametrized by the initial accumulator: two recursion levels, appending
segments of lengths 100, 100 and 50 after whatever the accumulator held. -/
theorem cut_line250_eval (acc : List (List Pt)) :
    cut 3 line250 100 acc
      = (some (acc ++ [[((0:ℝ), (0:ℝ)), ((100:ℝ), 0)], [((100:ℝ), 0), ((200:ℝ), 0)],
            [((200:ℝ), 0), ((250:ℝ), 0)]]),
         acc ++ [[((0:ℝ), (0:ℝ)), ((100:ℝ), 0)], [((100:ℝ), 0), ((200:ℝ), 0)],
            [((200:ℝ), 0), ((250:ℝ), 0)]]) := by
  norm_num [cut, firstGE, project, interpolate, lineLength, line250, onSeg_horiz,
    segLen_horiz, abs_of_nonneg, -Prod.mk_zero_zero]

/-- C7: for every polyline and every distance `d` with `d ≤ 0` or
`d ≥ line.length`, `cut` returns the single-element sequence containing the
original line unchanged, and leaves the accumulator untouched. -/
theorem cut_degenerate_distance (fuel : ℕ) (line : List Pt) (distance : ℝ)
    (lines : List (List Pt)) (h : distance ≤ 0 ∨ lineLength line ≤ distance) :
    cut (fuel + 1) line distance lines = (some [line], lines) := by
  simp only [cut]
  rw [if_pos h]

/-- C7 witness: cutting the segment from (0,0) to (1,0) at distance 0 returns
the line itself. -/
theorem cut_degenerate_distance_witness :
    cut 1 [((0:ℝ), (0:ℝ)), ((1:ℝ), 0)] 0 [] = (some [[((0:ℝ), (0:ℝ)), ((1:ℝ), 0)]], []) :=
  cut_degenerate_distance 0 [((0:ℝ), (0:ℝ)), ((1:ℝ), 0)] 0 [] (Or.inl le_rfl)

/-- C8: cutting the straight line from (0,0) to (250,0) at distance 100 returns
exactly three segments, of lengths 100, 100 and 50, in that order. -/
theorem cut_250_scenario :
    (cut 3 line250 100 []).1
      = some [[((0:ℝ), (0:ℝ)), ((100:ℝ), 0)], [((100:ℝ), 0), ((200:ℝ), 0)],
          [((200:ℝ), 0), ((250:ℝ), 0)]] ∧
    [[((0:ℝ), (0:ℝ)), ((100:ℝ), 0)], [((100:ℝ), 0), ((200:ℝ), 0)],
        [((200:ℝ), 0), ((250:ℝ), 0)]].map lineLength = [100, 100, 50] := by
  constructor
  · rw [cut_line250_eval]
    simp
  · norm_num [lineLength, segLen_horiz, abs_of_nonneg, -Prod.mk_zero_zero]

/-- C4 counterexample: `cut`'s output is not a pure function of line and
distance alone — two calls on the same line and distance, differing only in the
caller-supplied `lines` accumulator (which the Python code mutates and returns),
yield different return values. -/
theorem cut_accumulator_dependence :
    (cut 3 line250 100 [[((9:ℝ), (9:ℝ))]]).1 ≠ (cut 3 line250 100 []).1 := by
  rw [cut_line250_eval, cut_line250_eval]
  intro h
  simp only [List.nil_append, Option.some.injEq] at h
  simpa using congrArg List.length h

/-- C4 (amended): `cut` is deterministic as a function of all three of its
inputs — line, distance, and the `lines` accumulator.  Its only dependence on
(and observable mutation of) the accumulator is to extend it: the final
accumulator state of any run equals the initial accumulator followed by exactly
the segments produced by the same run started from an empty accumulator. -/
theorem cut_state_append (fuel : ℕ) :
    ∀ (line : List Pt) (distance : ℝ) (lines : List (List Pt)),
      (cut fuel line distance lines).2 = lines ++ (cut fuel line distance []).2 := by
  induction fuel with
  | zero => intro line d lines; simp [cut]
  | succ n ih =>
    intro line d lines
    by_cases hg : d ≤ 0 ∨ lineLength line ≤ d
    · simp [cut, hg]
    · simp only [cut, hg, if_false]
      cases hf : firstGE line d line 0 with
      | none => simp
      | some ip =>
        obtain ⟨i, p⟩ := ip
        simp only []
        by_cases he : project line p = d
        · simp [he]
        · simp only [he, if_false]
          by_cases hr : d < lineLength (interpolate line d :: line.drop i)
          · simp only [hr, if_true]
            rw [ih, ih (interpolate line d :: line.drop i) d
              ([] ++ [line.take i ++ [interpolate line d]])]
            simp [List.append_assoc]
          · simp only [hr, if_false]
            simp [List.append_assoc]

/-- C1: evaluation of `cut` at the failing input [(0,0), (150,0), (200,0),
(400,0)] with distance 100 and an empty accumulator.  The remainder line after
the first cut is [(100,0), (150,0), (200,0), (400,0)], whose vertex (200,0)
projects to exactly 100, so the recursive call takes the `pd == distance`
branch and returns its two segments as a fresh list — which the outer call
discards (that branch never appends to the shared accumulator).  The result is
the single segment [(0,0), (100,0)] of length 100, although the input line has
length 400: concatenating the returned segments does not reconstruct the
original coordinate sequence. -/
theorem cut_drops_segments_on_exact_remainder_split :
    cut 3 lineBug 100 []
      = (some [[((0:ℝ), (0:ℝ)), ((100:ℝ), 0)]], [[((0:ℝ), (0:ℝ)), ((100:ℝ), 0)]]) ∧
    concatSegs [[((0:ℝ), (0:ℝ)), ((100:ℝ), 0)]] ≠ lineBug ∧
    lineLength lineBug = 400 := by
  refine ⟨?_, ?_, ?_⟩
  · norm_num [cut, firstGE, project, interpolate, lineLength, lineBug, onSeg_horiz,
      segLen_horiz, abs_of_nonneg, -Prod.mk_zero_zero]
  · intro h
    simpa [concatSegs, lineBug] using congrArg List.length h
  · norm_num [lineLength, lineBug, segLen_horiz, abs_of_nonneg, -Prod.mk_zero_zero]

/-- C9 counterexample: the polyline [(0,0), (10,0), (0,0)] has at least 2
coordinates, length 20, and 0 < 15 < 20, yet no vertex of the loop projects to
15 or more — the final vertex coincides with the start, so its projection is
the arc length 0 of its first occurrence on the line — and `cut` takes the
implicit fall-through, returning Python `None`. -/
theorem projection_loop_falls_through :
    2 ≤ lineLoop.length ∧ (0:ℝ) < 15 ∧ (15:ℝ) < lineLength lineLoop ∧
    firstGE lineLoop 15 lineLoop 0 = none ∧ cut 5 lineLoop 15 [] = (none, []) := by
  refine ⟨by norm_num [lineLoop], by norm_num, ?_, ?_, ?_⟩
  · norm_num [lineLength, lineLoop, segLen_horiz, abs_of_nonneg, abs_of_nonpos,
      -Prod.mk_zero_zero]
  · norm_num [firstGE, project, lineLoop, onSeg_horiz, segLen_horiz, abs_of_nonneg,
      -Prod.mk_zero_zero]
  · norm_num [cut, firstGE, project, lineLoop, lineLength, onSeg_horiz, segLen_horiz,
      abs_of_nonneg, abs_of_nonpos, -Prod.mk_zero_zero]

/-- If some vertex of the scanned suffix projects onto the line at arc length at
least `d`, the vertex scan finds an index. -/
theorem firstGE_isSome_of_mem (line : List Pt) (d : ℝ) :
    ∀ (scan : List Pt) (i : ℕ), (∃ p ∈ scan, d ≤ project line p) →
      (firstGE line d scan i).isSome = true := by
  intro scan
  induction scan with
  | nil => intro i h; simp at h
  | cons q rest ih =>
    intro i h
    by_cases hq : d ≤ project line q
    · simp [firstGE, hq]
    · obtain ⟨p, hp, hd⟩ := h
      rcases List.mem_cons.mp hp with rfl | hmem
      · exact absurd hd hq
      · simp only [firstGE, hq, if_false]
        exact ih (i + 1) ⟨p, hmem, hd⟩

/-- C9 (amended): for every polyline with at least 2 coordinates whose *last
vertex projects to the full line length* (in particular, any polyline that does
not pass through its final coordinate earlier), and every distance `d` with
`0 < d < line.length`, the vertex-traversal loop reaches a vertex whose
projection is at least `d`, and the implicit fall-through returning `None` is
unreachable: `cut`'s Python return value is always an actual list. -/
theorem loop_reaches_vertex (line : List Pt) (distance : ℝ) (hne : line ≠ [])
    (h2 : 2 ≤ line.length) (h0 : 0 < distance) (hlt : distance < lineLength line)
    (hlast : project line (line.getLast hne) = lineLength line) :
    (firstGE line distance line 0).isSome = true ∧
    ∀ (fuel : ℕ) (lines : List (List Pt)),
      ((cut (fuel + 1) line distance lines).1).isSome = true := by
  have h2' := h2
  have hfind : (firstGE line distance line 0).isSome = true :=
    firstGE_isSome_of_mem line distance line 0
      ⟨line.getLast hne, List.getLast_mem hne, by rw [hlast]; exact le_of_lt hlt⟩
  refine ⟨hfind, ?_⟩
  intro fuel lines
  simp only [cut]
  rw [if_neg (by push_neg; exact ⟨h0, hlt⟩)]
  cases hf : firstGE line distance line 0 with
  | none => rw [hf] at hfind; simp at hfind
  | some ip =>
    obtain ⟨i, p⟩ := ip
    simp only []
    split_ifs <;> simp

/-- C9 (amended) witness: on the segment from (0,0) to (2,0) with distance 1,
the scan finds a vertex and `cut` returns a list. -/
theorem loop_reaches_vertex_witness :
    (firstGE [((0:ℝ), (0:ℝ)), ((2:ℝ), 0)] 1 [((0:ℝ), (0:ℝ)), ((2:ℝ), 0)] 0).isSome = true ∧
    ((cut 1 [((0:ℝ), (0:ℝ)), ((2:ℝ), 0)] 1 []).1).isSome = true := by
  have h := loop_reaches_vertex [((0:ℝ), (0:ℝ)), ((2:ℝ), 0)] 1 (by simp) (by simp)
    (by norm_num)
    (by norm_num [lineLength, segLen_horiz, abs_of_nonneg, -Prod.mk_zero_zero])
    (by norm_num [project, lineLength, List.getLast, onSeg_horiz, segLen_horiz,
      abs_of_nonneg, -Prod.mk_zero_zero])
  exact ⟨h.1, h.2 0 []⟩

end BuiltUp
